import Mathlib

/-!
Shallow embedding of the hill-chart label layout engine
(`src/HillChart.tsx`) over exact rational arithmetic, together with
theorems checking the natural-language specification against it.

All coordinates are `ℚ`; every arithmetic operation performed by the
source (addition, subtraction, multiplication, division by constants,
comparisons) is exact on the inputs considered, so the rational
embedding computes the same values as the source's float arithmetic
on those inputs.  The only non-rational operation in the source is the
square root inside `boxOverlapsDot`; since both sides of its comparison
are nonnegative, `sqrt (d2) < r` is replaced by the equivalent
`d2 < r * r`.
-/

namespace HillChartSpec

/-- A marker, called `EpicDot` in the source: `key`, position `x` in
[0,100] along the hill, and display `title`. -/
structure Epic where
  key : String
  x : ℚ
  title : String
deriving DecidableEq, Repr, Inhabited

def HILL_WIDTH : ℚ := 800
def HILL_HEIGHT : ℚ := 400
def MARGIN_X : ℚ := 40
def MARGIN_Y : ℚ := 40
def TITLE_HEIGHT : ℚ := 40
def DOT_RADIUS : ℚ := 10
def MIN_SPACING : ℚ := 8

/-- Source `hillY01`: x in [0,100] mapped to the height fraction 4·t·(1−t). -/
def hillY01 (x : ℚ) : ℚ :=
  let t := x / 100
  4 * t * (1 - t)

/-- Source `hillCoords`: progress value to SVG coordinates `(svgX, svgY)`. -/
def hillCoords (x : ℚ) : ℚ × ℚ :=
  let t := x / 100
  let hillHeight := HILL_HEIGHT - 2 * MARGIN_Y - TITLE_HEIGHT
  let hillWidth := HILL_WIDTH - 2 * MARGIN_X
  let hillTopY := MARGIN_Y
  let y01 := hillY01 x
  (MARGIN_X + hillWidth * t, hillTopY + hillHeight - hillHeight * y01)

/-- Inner loop of `wrapText`: fold the word list, greedily filling
`currentLine`, flushing it when the next word would overflow. -/
def wrapLoop (maxCharsPerLine : ℕ) : List String → List String → String → List String
  | [], lines, currentLine =>
      if currentLine ≠ "" then lines ++ [currentLine] else lines
  | word :: ws, lines, currentLine =>
      if currentLine = "" then
        wrapLoop maxCharsPerLine ws lines word
      else if (currentLine ++ " " ++ word).length ≤ maxCharsPerLine then
        wrapLoop maxCharsPerLine ws lines (currentLine ++ " " ++ word)
      else
        wrapLoop maxCharsPerLine ws (lines ++ [currentLine]) word

/-- Source `wrapText`: wrap text into lines of at most `maxCharsPerLine`
characters (word-atomic); an empty result degrades to `[text]`. -/
def wrapText (text : String) (maxCharsPerLine : ℕ) : List String :=
  let lines := wrapLoop maxCharsPerLine (text.splitOn " ") [] ""
  if lines.length > 0 then lines else [text]

/-- The per-marker immutable data computed by the `labelData` map in
`calculateLabelPositions`: anchor coordinates, box dimensions, wrapped
text lines and the layout constants attached to each entry. -/
structure LD where
  epic : Epic
  svgX : ℚ
  svgY : ℚ
  boxWidth : ℚ
  boxHeight : ℚ
  textLines : List String
  lineHeight : ℚ
  paddingX : ℚ
  paddingY : ℚ
deriving DecidableEq, Repr, Inhabited

/-- Build the `labelData` entry for one epic (lines 139–164 of the
source): wrap the title at 18 chars, estimate the box from the longest
line at 6.5 units/char, line height 14, padding 6×4. -/
def mkLD (epic : Epic) : LD :=
  let c := hillCoords epic.x
  let textLines := wrapText epic.title 18
  let lineHeight : ℚ := 14
  let longestLine := textLines.foldl (fun a b => if a.length > b.length then a else b) ""
  let estimatedCharWidth : ℚ := 6.5
  let textWidth := (longestLine.length : ℚ) * estimatedCharWidth
  let textHeight := (textLines.length : ℚ) * lineHeight
  let paddingX : ℚ := 6
  let paddingY : ℚ := 4
  { epic := epic
    svgX := c.1
    svgY := c.2
    boxWidth := textWidth + paddingX * 2
    boxHeight := textHeight + paddingY * 2
    textLines := textLines
    lineHeight := lineHeight
    paddingX := paddingX
    paddingY := paddingY }

/-- A label position entry: the immutable datum plus the mutable layout
state the source keeps on each `labelPositions` element. -/
structure LP where
  ld : LD
  labelY : ℚ
  boxY : ℚ
  isBelowDot : Bool
  isAngled : Bool
  offsetX : ℚ
  offsetY : ℚ
  isAtClosestPosition : Bool
deriving DecidableEq, Repr, Inhabited

/-- Initial `labelPositions` entry (lines 170–183): the default
above-the-dot position. -/
def initLP (d : LD) : LP :=
  let baseY := d.svgY - 20 - ((d.textLines.length : ℚ) - 1) * (d.lineHeight / 2)
  { ld := d
    labelY := baseY
    boxY := baseY - d.lineHeight + 2 - d.paddingY
    isBelowDot := false
    isAngled := false
    offsetX := 0
    offsetY := 0
    isAtClosestPosition := false }

/-- Stable insertion of one datum into a list sorted by `svgX`
ascending: `a` goes after every earlier element with `svgX` not greater
than positions already ahead of it; equal keys keep input order. -/
def insertByX (a : LD) : List LD → List LD
  | [] => [a]
  | b :: l => if b.svgX < a.svgX then b :: insertByX a l else a :: b :: l

/-- The source's `sorted = [...labelData].sort((a, b) => a.svgX - b.svgX)`:
a stable ascending sort by `svgX`. -/
def sortByX : List LD → List LD
  | [] => []
  | a :: l => insertByX a (sortByX l)

/-- The effective horizontal center of a committed label, as read by
`checkOverlaps`: `other.isAngled ? other.svgX + other.offsetX : other.svgX`. -/
def effX (p : LP) : ℚ :=
  if p.isAngled then p.ld.svgX + p.offsetX else p.ld.svgX

/-- Source `boxesOverlap` (lines 186–196): rectangle overlap test; `box1X`,
`box2X` are horizontal centers, `box1Y`, `box2Y` are box tops, with
`MIN_SPACING` inflation on the vertical axis only. -/
def boxesOverlap (box1X box1Y box1Width box1Height box2X box2Y box2Width box2Height : ℚ) : Bool :=
  decide (box1X + box1Width / 2 > box2X - box2Width / 2 ∧
    box1X - box1Width / 2 < box2X + box2Width / 2 ∧
    box1Y + box1Height > box2Y - MIN_SPACING ∧
    box1Y < box2Y + box2Height + MIN_SPACING)

/-- Source `boxOverlapsDot` (lines 199–213): closest point of the box to the
dot center; the source compares `sqrt (dx²+dy²) < dotRadius + MIN_SPACING`,
equivalent (both sides nonnegative) to the squared comparison used here. -/
def boxOverlapsDot (boxX boxY boxWidth boxHeight dotX dotY dotRadius : ℚ) : Bool :=
  let closestX := max (boxX - boxWidth / 2) (min dotX (boxX + boxWidth / 2))
  let closestY := max boxY (min dotY (boxY + boxHeight))
  let dx := dotX - closestX
  let dy := dotY - closestY
  decide (dx * dx + dy * dy < (dotRadius + MIN_SPACING) * (dotRadius + MIN_SPACING))

def minY : ℚ := MARGIN_Y + 5
def maxY : ℚ := HILL_HEIGHT - MARGIN_Y - TITLE_HEIGHT - 5

/-- Source `isWithinBounds` (lines 233–235). -/
def isWithinBounds (boxY boxHeight : ℚ) : Bool :=
  decide (boxY ≥ minY ∧ boxY + boxHeight ≤ maxY)

/-- Source `checkOverlaps` (lines 238–291): validity test for a candidate at
vertical box top `yb` and optional explicit horizontal center `xb`
(absent means centered on the own dot).  True means invalid.  The
context is the committed earlier entries `placed` (the `j < i` loop)
and the dot coordinates of every other marker `otherDots` (the `j ≠ i`
loop; committed entries first, later entries after, matching the
source's index order). -/
def checkOverlaps (placed : List LP) (otherDots : List (ℚ × ℚ)) (cur : LP)
    (yb : ℚ) (xb : Option ℚ) : Bool :=
  let labelX := xb.getD cur.ld.svgX
  !(isWithinBounds yb cur.ld.boxHeight) ||
  (xb.isSome && decide (labelX - cur.ld.boxWidth / 2 < MARGIN_X ∨
      labelX + cur.ld.boxWidth / 2 > HILL_WIDTH - MARGIN_X)) ||
  boxOverlapsDot labelX yb cur.ld.boxWidth cur.ld.boxHeight
    cur.ld.svgX cur.ld.svgY DOT_RADIUS ||
  placed.any (fun other =>
    boxesOverlap labelX yb cur.ld.boxWidth cur.ld.boxHeight
      (effX other) other.boxY other.ld.boxWidth other.ld.boxHeight) ||
  otherDots.any (fun q =>
    boxOverlapsDot labelX yb cur.ld.boxWidth cur.ld.boxHeight q.1 q.2 DOT_RADIUS)

/-- Initial label baseline above the dot (line 225). -/
def initialYAbove (d : LD) : ℚ :=
  d.svgY - 20 - ((d.textLines.length : ℚ) - 1) * (d.lineHeight / 2)

/-- Initial box top above the dot (line 226). -/
def initialBoxYAbove (d : LD) : ℚ :=
  initialYAbove d - d.lineHeight + 2 - d.paddingY

/-- Initial label baseline below the dot (line 229). -/
def initialYBelow (d : LD) : ℚ :=
  d.svgY + 20 + ((d.textLines.length : ℚ) - 1) * (d.lineHeight / 2)

/-- Initial box top below the dot (line 230). -/
def initialBoxYBelow (d : LD) : ℚ :=
  initialYBelow d - d.lineHeight + 2 - d.paddingY

/-- The `while (attempts < maxAttempts)` search of `tryPosition`
(lines 337–362), with the attempt counter as fuel: at each step, accept
the current position if valid, otherwise move `stepSize = 5` away from
the dot and abort if the moved box crosses the band boundary.  Returns
(success, final labelY, final boxY); on failure the mutated position is
retained, exactly as the source leaves `current` mutated. -/
def searchLoop (placed : List LP) (otherDots : List (ℚ × ℚ)) (cur : LP) (isBelow : Bool) :
    ℕ → ℚ → ℚ → Bool × ℚ × ℚ
  | 0, ly, yb => (false, ly, yb)
  | Nat.succ n, ly, yb =>
    if checkOverlaps placed otherDots cur yb none = false then (true, ly, yb)
    else
      let moveAmount : ℚ := if isBelow then 5 else -5
      let ly2 := ly + moveAmount
      let yb2 := yb + moveAmount
      if !isBelow && decide (yb2 < minY) then (false, ly2, yb2)
      else if isBelow && decide (yb2 + cur.ld.boxHeight > maxY) then (false, ly2, yb2)
      else searchLoop placed otherDots cur isBelow n ly2 yb2

/-- Source `tryPosition` (lines 318–365): set the side's initial position
(mutating `labelY`, `boxY`, `isBelowDot` even on failure), fail fast on
bounds, accept an unmoved valid position, otherwise run the search.
Returns (updated entry, success, moved). -/
def tryPosition (placed : List LP) (otherDots : List (ℚ × ℚ)) (cur : LP) (isBelow : Bool) :
    LP × Bool × Bool :=
  let initialY := if isBelow then initialYBelow cur.ld else initialYAbove cur.ld
  let initialBoxY := if isBelow then initialBoxYBelow cur.ld else initialBoxYAbove cur.ld
  let c := { cur with labelY := initialY, boxY := initialBoxY, isBelowDot := isBelow }
  if isWithinBounds c.boxY c.ld.boxHeight = false then (c, false, false)
  else if checkOverlaps placed otherDots c c.boxY none = false then (c, true, false)
  else
    let r := searchLoop placed otherDots c isBelow 100 c.labelY c.boxY
    ({ c with labelY := r.2.1, boxY := r.2.2 }, r.1, true)

/-- The four diagonal offsets of `tryAngledPosition` (lines 369–374),
in source order: top-right, top-left, bottom-right, bottom-left. -/
def angleOffsets (cur : LP) : List (ℚ × ℚ) :=
  [ (cur.ld.boxWidth / 2 + 15, -(cur.ld.boxHeight / 2) - 10),
    (-(cur.ld.boxWidth / 2 + 15), -(cur.ld.boxHeight / 2) - 10),
    (cur.ld.boxWidth / 2 + 15, cur.ld.boxHeight / 2 + 10),
    (-(cur.ld.boxWidth / 2 + 15), cur.ld.boxHeight / 2 + 10) ]

/-- The `for (const offset of angleOffsets)` loop of
`tryAngledPosition` (lines 376–390): accept the first diagonal
candidate that passes `checkOverlaps`; on exhaustion the entry is left
unchanged. -/
def tryAngledLoop (placed : List LP) (otherDots : List (ℚ × ℚ)) (cur : LP) :
    List (ℚ × ℚ) → LP × Bool
  | [] => (cur, false)
  | off :: rest =>
    let angledX := cur.ld.svgX + off.1
    let angledY := cur.ld.svgY + off.2
    let angledBoxY := angledY - cur.ld.lineHeight + 2 - cur.ld.paddingY
    if checkOverlaps placed otherDots cur angledBoxY (some angledX) = false then
      ({ cur with
          labelY := angledY
          boxY := angledBoxY
          isAngled := true
          offsetX := off.1
          offsetY := off.2
          isBelowDot := decide (off.2 > 0) }, true)
    else tryAngledLoop placed otherDots cur rest

/-- Source `tryAngledPosition` (lines 368–393). -/
def tryAngledPosition (placed : List LP) (otherDots : List (ℚ × ℚ)) (cur : LP) : LP × Bool :=
  tryAngledLoop placed otherDots cur (angleOffsets cur)

/-- The nearby-side bias (lines 295–314): among committed entries within
`NEARBY_THRESHOLD = 100` of the current x, prefer below iff strictly
more have labels above. -/
def preferBelow (placed : List LP) (cur : LP) : Bool :=
  let nearbyAbove := (placed.filter (fun o =>
    decide (|cur.ld.svgX - o.ld.svgX| < 100) && !o.isBelowDot)).length
  let nearbyBelow := (placed.filter (fun o =>
    decide (|cur.ld.svgX - o.ld.svgX| < 100) && o.isBelowDot)).length
  decide (nearbyAbove > nearbyBelow)

/-- The final unconditional clamp (lines 427–435): pull the box top down
to `minY`, then pull the box bottom up to `maxY`, adjusting `labelY`
with it. -/
def clampLP (c : LP) : LP :=
  let c1 := if decide (c.boxY < minY) then
    { c with boxY := minY, labelY := minY + c.ld.lineHeight - 2 + c.ld.paddingY }
  else c
  if decide (c1.boxY + c1.ld.boxHeight > maxY) then
    { c1 with
        boxY := maxY - c1.ld.boxHeight
        labelY := maxY - c1.ld.boxHeight + c1.ld.lineHeight - 2 + c1.ld.paddingY }
  else c1

/-- The two vertical attempts (lines 398–417): preferred side first,
opposite side on failure.  Returns (entry, success, wasMoved). -/
def placeVert (placed : List LP) (otherDots : List (ℚ × ℚ)) (cur : LP) : LP × Bool × Bool :=
  let pb := preferBelow placed cur
  let r1 := tryPosition placed otherDots cur pb
  if r1.2.1 then r1
  else
    let r2 := tryPosition placed otherDots r1.1 (!pb)
    (r2.1, r2.2.1, r1.2.2 || r2.2.2)

/-- The angled fallback stage (lines 419–425): run only when both
vertical sides failed; an angled success always counts as moved. -/
def placeFallback (placed : List LP) (otherDots : List (ℚ × ℚ)) (v : LP × Bool × Bool) :
    LP × Bool × Bool :=
  if v.2.1 then v
  else
    let ra := tryAngledPosition placed otherDots v.1
    if ra.2 then (ra.1, true, true) else (ra.1, false, v.2.2)

/-- The clamp and the `isAtClosestPosition` assignment (lines 427–439).
The second component of the result is the source's `moved` flag: true
iff some validity check accepted the placement (the last-resort clamp
was not the final word). -/
def placeOneFinish (w : LP × Bool × Bool) : LP × Bool :=
  let c := clampLP w.1
  ({ c with isAtClosestPosition := !w.2.2 && !c.isAngled }, w.2.1)

/-- One iteration of the `for (let i = 0; ...)` loop (lines 220–440). -/
def placeOneFull (placed : List LP) (otherDots : List (ℚ × ℚ)) (cur : LP) : LP × Bool :=
  placeOneFinish (placeFallback placed otherDots (placeVert placed otherDots cur))

/-- The main loop over sorted entries, committing one placement at a
time; `acc` holds the committed entries (with their acceptance flags),
`rest` the not-yet-processed ones.  The dots visible to the current
entry are those of every other entry, committed first. -/
def layoutLoopF : List (LP × Bool) → List LP → List (LP × Bool)
  | acc, [] => acc
  | acc, c :: rest =>
    let placed := acc.map Prod.fst
    let otherDots := placed.map (fun p => (p.ld.svgX, p.ld.svgY)) ++
      rest.map (fun p => (p.ld.svgX, p.ld.svgY))
    layoutLoopF (acc ++ [placeOneFull placed otherDots c]) rest

/-- Source `calculateLabelPositions` with the per-entry acceptance flag kept. -/
def calculateLabelPositionsF (epics : List Epic) : List (LP × Bool) :=
  layoutLoopF [] ((sortByX (epics.map mkLD)).map initLP)

/-- Source `calculateLabelPositions` (lines 135–443): the committed entries in
processing order. -/
def calculateLabelPositions (epics : List Epic) : List LP :=
  (calculateLabelPositionsF epics).map Prod.fst

/-- Source `labelMap` (line 447): association list from epic key to placement. -/
def labelMap (epics : List Epic) : List (String × LP) :=
  (calculateLabelPositions epics).map (fun lp => (lp.ld.epic.key, lp))

/-- The connector guard in the render (line 536): a dashed connector is
drawn exactly when the label is not at its closest/default position. -/
def connectorDrawn (p : LP) : Bool :=
  !p.isAtClosestPosition

/-- The action of the final clamp on a box top `yb` for a box of height
`h`: first the top clamp to `minY`, then the bottom clamp to `maxY`. -/
def clampY (yb h : ℚ) : ℚ :=
  let y1 := if yb < minY then minY else yb
  if y1 + h > maxY then maxY - h else y1

/-- The diagonal candidate displacements in the fixed order stated by
the spec: top-right, top-left, bottom-right, bottom-left, for a box of
width `w` and height `h`. -/
def specDiagonalOffsets (w h : ℚ) : List (ℚ × ℚ) :=
  [ (w / 2 + 15, -(h / 2 + 10)),
    (-(w / 2 + 15), -(h / 2 + 10)),
    (w / 2 + 15, h / 2 + 10),
    (-(w / 2 + 15), h / 2 + 10) ]

/-- Amended-spec description of the diagonal fallback: take the first
candidate, in the order of `specDiagonalOffsets`, whose first-line
baseline sits at anchor + offset — with box top at that baseline minus
`lineHeight - 2 + paddingY` — and which passes the validity check;
record it as angled. -/
def specAngledSelect (placed : List LP) (otherDots : List (ℚ × ℚ)) (cur : LP) : LP × Bool :=
  match (specDiagonalOffsets cur.ld.boxWidth cur.ld.boxHeight).find?
      (fun off => !(checkOverlaps placed otherDots cur
        (cur.ld.svgY + off.2 - cur.ld.lineHeight + 2 - cur.ld.paddingY)
        (some (cur.ld.svgX + off.1)))) with
  | some off =>
      ({ cur with
          labelY := cur.ld.svgY + off.2
          boxY := cur.ld.svgY + off.2 - cur.ld.lineHeight + 2 - cur.ld.paddingY
          isAngled := true
          offsetX := off.1
          offsetY := off.2
          isBelowDot := decide (off.2 > 0) }, true)
  | none => (cur, false)

/-- Two committed placements do not overlap, in the sense of the
engine's own rectangle test applied to their effective positions. -/
def noOverlapPair (a b : LP) : Prop :=
  boxesOverlap (effX a) a.boxY a.ld.boxWidth a.ld.boxHeight
    (effX b) b.boxY b.ld.boxWidth b.ld.boxHeight = false

theorem mkLD_lineHeight (ep : Epic) : (mkLD ep).lineHeight = 14 := rfl

theorem mkLD_paddingY (ep : Epic) : (mkLD ep).paddingY = 4 := rfl

theorem mkLD_textLines (ep : Epic) : (mkLD ep).textLines = wrapText ep.title 18 := rfl

theorem mkLD_epic (ep : Epic) : (mkLD ep).epic = ep := rfl

theorem mkLD_boxHeight (ep : Epic) :
    (mkLD ep).boxHeight = ((mkLD ep).textLines.length : ℚ) * 14 + 4 * 2 := rfl

/-- C7: `mapToCanvas(0)` and `mapToCanvas(100)` both yield a y equal to
the baseline y-coordinate `H − MY − BAND` (height fraction 0), and
`mapToCanvas(50)` yields the minimum y over [0,100], namely `MY`
(the apex). -/
theorem c7_curve_extremes :
    (hillCoords 0).2 = HILL_HEIGHT - MARGIN_Y - TITLE_HEIGHT ∧
    (hillCoords 100).2 = HILL_HEIGHT - MARGIN_Y - TITLE_HEIGHT ∧
    (hillCoords 50).2 = MARGIN_Y ∧
    ∀ p : ℚ, 0 ≤ p → p ≤ 100 → (hillCoords 50).2 ≤ (hillCoords p).2 := by
  refine ⟨by with_unfolding_all decide, by with_unfolding_all decide, by with_unfolding_all decide, ?_⟩
  intro p h0 h1
  simp only [hillCoords, hillY01, HILL_WIDTH, HILL_HEIGHT, MARGIN_X, MARGIN_Y, TITLE_HEIGHT]
  nlinarith [sq_nonneg (p / 50 - 1)]

theorem c7_curve_extremes_witness :
    (0 : ℚ) ≤ 30 ∧ (30 : ℚ) ≤ 100 ∧ (hillCoords 50).2 ≤ (hillCoords 30).2 :=
  ⟨by norm_num, by norm_num, c7_curve_extremes.2.2.2 30 (by norm_num) (by norm_num)⟩

/-- C8: for all progress values `p1 ≤ p2` in [0,100], the x-coordinate
of `mapToCanvas` is monotonically non-decreasing. -/
theorem c8_x_monotone (p1 p2 : ℚ) (_h0 : 0 ≤ p1) (h12 : p1 ≤ p2) (_h2 : p2 ≤ 100) :
    (hillCoords p1).1 ≤ (hillCoords p2).1 := by
  simp only [hillCoords, hillY01, HILL_WIDTH, HILL_HEIGHT, MARGIN_X, MARGIN_Y, TITLE_HEIGHT]
  linarith

theorem c8_x_monotone_witness :
    (0 : ℚ) ≤ 10 ∧ (10 : ℚ) ≤ 20 ∧ (20 : ℚ) ≤ 100 ∧ (hillCoords 10).1 ≤ (hillCoords 20).1 :=
  ⟨by norm_num, by norm_num, by norm_num,
    c8_x_monotone 10 20 (by norm_num) (by norm_num) (by norm_num)⟩

/-- C4 counterexample: for a one-line marker at progress 25, the default
ABOVE box bottom edge is 14 logical units above the anchor, not the
claimed `20 + extra` (= 20) units. -/
theorem c4_counterexample :
    initialBoxYAbove (mkLD { key := "A", x := 25, title := "x" })
        + (mkLD { key := "A", x := 25, title := "x" }).boxHeight
      ≠ (mkLD { key := "A", x := 25, title := "x" }).svgY - 20 := by
  with_unfolding_all decide

/-- C4 amended: the default ABOVE candidate places the first-line text
baseline (`labelY`) exactly `20 + extra` above the anchor, with
`extra = (lineCount−1)·(lineHeight/2)`; the box top is that baseline
minus 16 (= lineHeight − 2 + paddingY), so the box bottom edge ends
`21 − 7·lineCount` above the anchor.  The BELOW candidate is symmetric
at baseline level: baseline `20 + extra` below the anchor, box top
`4 + extra` below the anchor. -/
theorem c4_amended_default_candidates (ep : Epic) :
    initialYAbove (mkLD ep) = (mkLD ep).svgY
        - (20 + (((mkLD ep).textLines.length : ℚ) - 1) * 7) ∧
    initialBoxYAbove (mkLD ep) = initialYAbove (mkLD ep) - 16 ∧
    initialBoxYAbove (mkLD ep) + (mkLD ep).boxHeight
      = (mkLD ep).svgY - (21 - 7 * ((mkLD ep).textLines.length : ℚ)) ∧
    initialYBelow (mkLD ep) = (mkLD ep).svgY
        + (20 + (((mkLD ep).textLines.length : ℚ) - 1) * 7) ∧
    initialBoxYBelow (mkLD ep) = (mkLD ep).svgY
        + (4 + (((mkLD ep).textLines.length : ℚ) - 1) * 7) := by
  simp only [initialBoxYAbove, initialYAbove, initialBoxYBelow, initialYBelow,
    mkLD_lineHeight, mkLD_paddingY, mkLD_boxHeight]
  refine ⟨by ring, by ring, by ring, by ring, by ring⟩

/-- C2 counterexample: for the single marker `{key:"A", progress:50,
text:"x"}` the engine returns a BELOW placement (`isBelowDot = true`),
not the claimed ABOVE one. -/
theorem c2_counterexample :
    (calculateLabelPositions [{ key := "A", x := 50, title := "x" }]).map LP.isBelowDot
      = [true] := by with_unfolding_all decide

/-- C2 amended: for the single marker `{key:"A", progress:50, text:"x"}`
(anchor at the apex, y = 40), both vertical defaults and all four
diagonals fail the validity check, so the placement is the BELOW
default clamped to the top of the band (`boxY = 45`, `labelY = 61`),
with `isDefault = true` (so no connector is drawn) and the acceptance
flag false. -/
theorem c2_amended_single_marker :
    calculateLabelPositionsF [{ key := "A", x := 50, title := "x" }] =
      [({ ld := {
            epic := { key := "A", x := 50, title := "x" }
            svgX := 400
            svgY := 40
            boxWidth := 37/2
            boxHeight := 22
            textLines := ["x"]
            lineHeight := 14
            paddingX := 6
            paddingY := 4 }
          labelY := 61
          boxY := 45
          isBelowDot := true
          isAngled := false
          offsetX := 0
          offsetY := 0
          isAtClosestPosition := true }, false)] ∧
    (calculateLabelPositions [{ key := "A", x := 50, title := "x" }]).map connectorDrawn
      = [false] := by
  constructor
  · with_unfolding_all decide
  · with_unfolding_all decide

/-- C3 counterexample: for the single marker `{key:"B", progress:50,
text:"ok"}`, the preferred (ABOVE) default fails its bounds check, the
BELOW default also fails, every diagonal fails, and the placement is
produced by the last-resort clamp (acceptance flag false) on the
opposite side — yet `isDefault` (`isAtClosestPosition`) is still true,
contradicting "isDefault=true only when the preferred side's default
position was accepted immediately". -/
theorem c3_counterexample :
    (calculateLabelPositionsF [{ key := "B", x := 50, title := "ok" }]).map
      (fun e => (e.1.isAtClosestPosition, e.1.isBelowDot, e.2)) = [(true, true, false)] := by
  with_unfolding_all decide

/-- C5 counterexample: for a lone one-line marker at progress 25 the
diagonal fallback accepts the first (top-right) candidate, but the
accepted label box center sits at y = 84, not at the claimed
`anchor.y − (boxHeight/2 + 10)` = 89: the candidate displaces the text
baseline, not the box center. -/
theorem c5_counterexample :
    (tryAngledPosition [] [] (initLP (mkLD { key := "A", x := 25, title := "x" }))).2 = true ∧
    ((tryAngledPosition [] [] (initLP (mkLD { key := "A", x := 25, title := "x" }))).1).boxY
        + ((tryAngledPosition [] [] (initLP (mkLD { key := "A", x := 25, title := "x" }))).1).ld.boxHeight / 2
      ≠ (mkLD { key := "A", x := 25, title := "x" }).svgY
        - ((mkLD { key := "A", x := 25, title := "x" }).boxHeight / 2 + 10) := by
  constructor
  · with_unfolding_all decide
  · with_unfolding_all decide

theorem angleOffsets_eq (cur : LP) :
    angleOffsets cur = specDiagonalOffsets cur.ld.boxWidth cur.ld.boxHeight := by
  simp only [angleOffsets, specDiagonalOffsets]
  ring_nf

theorem tryAngledLoop_spec (placed : List LP) (otherDots : List (ℚ × ℚ)) (cur : LP) :
    ∀ offs : List (ℚ × ℚ),
      tryAngledLoop placed otherDots cur offs =
        (match offs.find? (fun off => !(checkOverlaps placed otherDots cur
            (cur.ld.svgY + off.2 - cur.ld.lineHeight + 2 - cur.ld.paddingY)
            (some (cur.ld.svgX + off.1)))) with
          | some off =>
            ({ cur with
                labelY := cur.ld.svgY + off.2
                boxY := cur.ld.svgY + off.2 - cur.ld.lineHeight + 2 - cur.ld.paddingY
                isAngled := true
                offsetX := off.1
                offsetY := off.2
                isBelowDot := decide (off.2 > 0) }, true)
          | none => (cur, false)) := by
  intro offs
  induction offs with
  | nil => rfl
  | cons off rest ih =>
    cases hc : checkOverlaps placed otherDots cur
        (cur.ld.svgY + off.2 - cur.ld.lineHeight + 2 - cur.ld.paddingY)
        (some (cur.ld.svgX + off.1)) with
    | false => simp [tryAngledLoop, List.find?, hc]
    | true => simp [tryAngledLoop, List.find?, hc, ih]

theorem tryAngledPosition_eq_spec (placed : List LP) (otherDots : List (ℚ × ℚ)) (cur : LP) :
    tryAngledPosition placed otherDots cur = specAngledSelect placed otherDots cur := by
  rw [tryAngledPosition, tryAngledLoop_spec, angleOffsets_eq]
  rfl

/-- C5 corrected: the engine's diagonal fallback tries exactly four
candidates in the fixed order top-right, top-left, bottom-right,
bottom-left, each displacing the label's first-line baseline (not the
box center) by `(±(boxWidth/2+15), ∓(boxHeight/2+10))` from the anchor,
with the box top at that baseline minus `lineHeight − 2 + paddingY`;
the first candidate passing the validity check is accepted with
`isAngled = true`; and `placeOneFull` runs this fallback exactly when
both vertical sides have failed. -/
theorem c5_amended_diagonal_fallback :
    (∀ (placed : List LP) (otherDots : List (ℚ × ℚ)) (cur : LP),
      tryAngledPosition placed otherDots cur = specAngledSelect placed otherDots cur) ∧
    (∀ (placed : List LP) (otherDots : List (ℚ × ℚ)) (cur : LP),
      (placeVert placed otherDots cur).2.1 = false →
      placeOneFull placed otherDots cur =
        placeOneFinish
          (let ra := specAngledSelect placed otherDots (placeVert placed otherDots cur).1
          if ra.2 then (ra.1, true, true)
          else (ra.1, false, (placeVert placed otherDots cur).2.2))) := by
  refine ⟨tryAngledPosition_eq_spec, fun placed otherDots cur hv => ?_⟩
  simp only [placeOneFull, placeFallback, hv, Bool.false_eq_true, if_false,
    tryAngledPosition_eq_spec]

theorem c5_amended_diagonal_fallback_witness :
    ((placeVert [] [] (initLP (mkLD { key := "A", x := 50, title := "x" }))).2.1 = false) ∧
    (placeOneFull [] [] (initLP (mkLD { key := "A", x := 50, title := "x" })) =
      placeOneFinish
        (let ra := specAngledSelect [] []
          (placeVert [] [] (initLP (mkLD { key := "A", x := 50, title := "x" }))).1
        if ra.2 then (ra.1, true, true)
        else (ra.1, false,
          (placeVert [] [] (initLP (mkLD { key := "A", x := 50, title := "x" }))).2.2))) :=
  ⟨by with_unfolding_all decide,
    c5_amended_diagonal_fallback.2 [] [] (initLP (mkLD { key := "A", x := 50, title := "x" }))
      (by with_unfolding_all decide)⟩

theorem tryPosition_ld (p : List LP) (d : List (ℚ × ℚ)) (c : LP) (s : Bool) :
    ((tryPosition p d c s).1).ld = c.ld := by
  simp only [tryPosition]
  repeat' split
  all_goals rfl

theorem tryPosition_isAngled (p : List LP) (d : List (ℚ × ℚ)) (c : LP) (s : Bool) :
    ((tryPosition p d c s).1).isAngled = c.isAngled := by
  simp only [tryPosition]
  repeat' split
  all_goals rfl

theorem tryPosition_offsetX (p : List LP) (d : List (ℚ × ℚ)) (c : LP) (s : Bool) :
    ((tryPosition p d c s).1).offsetX = c.offsetX := by
  simp only [tryPosition]
  repeat' split
  all_goals rfl

theorem tryPosition_isBelowDot (p : List LP) (d : List (ℚ × ℚ)) (c : LP) (s : Bool) :
    ((tryPosition p d c s).1).isBelowDot = s := by
  simp only [tryPosition]
  repeat' split
  all_goals rfl

theorem clampLP_ld (c : LP) : (clampLP c).ld = c.ld := by
  simp only [clampLP]
  repeat' split
  all_goals rfl

theorem clampLP_isAngled (c : LP) : (clampLP c).isAngled = c.isAngled := by
  simp only [clampLP]
  repeat' split
  all_goals rfl

theorem clampLP_isBelowDot (c : LP) : (clampLP c).isBelowDot = c.isBelowDot := by
  simp only [clampLP]
  repeat' split
  all_goals rfl

theorem clampLP_offsetX (c : LP) : (clampLP c).offsetX = c.offsetX := by
  simp only [clampLP]
  repeat' split
  all_goals rfl

theorem clampLP_boxY (c : LP) : (clampLP c).boxY = clampY c.boxY c.ld.boxHeight := by
  by_cases h1 : c.boxY < minY
  · by_cases h2 : minY + c.ld.boxHeight > maxY <;>
      simp [clampLP, clampY, h1, h2]
  · by_cases h2 : c.boxY + c.ld.boxHeight > maxY <;>
      simp [clampLP, clampY, h1, h2]

theorem clampLP_labelY (c : LP)
    (h : c.labelY = c.boxY + c.ld.lineHeight - 2 + c.ld.paddingY) :
    (clampLP c).labelY = (clampLP c).boxY + (clampLP c).ld.lineHeight - 2
      + (clampLP c).ld.paddingY := by
  by_cases h1 : c.boxY < minY
  · by_cases h2 : minY + c.ld.boxHeight > maxY <;>
      simp [clampLP, h1, h2, h]
  · by_cases h2 : c.boxY + c.ld.boxHeight > maxY <;>
      simp [clampLP, h1, h2, h]

theorem clampLP_id (c : LP) (h : isWithinBounds c.boxY c.ld.boxHeight = true) :
    clampLP c = c := by
  simp only [isWithinBounds, decide_eq_true_eq] at h
  have h1 : ¬ c.boxY < minY := not_lt.2 h.1
  have h2 : ¬ c.boxY + c.ld.boxHeight > maxY := not_lt.2 h.2
  simp [clampLP, h1, h2]

theorem tryAngledPosition_fail (p : List LP) (d : List (ℚ × ℚ)) (c : LP)
    (h : (tryAngledPosition p d c).2 = false) :
    (tryAngledPosition p d c).1 = c := by
  rw [tryAngledPosition_eq_spec] at h ⊢
  unfold specAngledSelect at h ⊢
  cases hf : (specDiagonalOffsets c.ld.boxWidth c.ld.boxHeight).find?
      (fun off => !(checkOverlaps p d c
        (c.ld.svgY + off.2 - c.ld.lineHeight + 2 - c.ld.paddingY)
        (some (c.ld.svgX + off.1)))) with
  | none => simp [hf]
  | some off => rw [hf] at h; simp at h

theorem tryAngledPosition_ld (p : List LP) (d : List (ℚ × ℚ)) (c : LP) :
    ((tryAngledPosition p d c).1).ld = c.ld := by
  rw [tryAngledPosition_eq_spec]
  unfold specAngledSelect
  cases hf : (specDiagonalOffsets c.ld.boxWidth c.ld.boxHeight).find?
      (fun off => !(checkOverlaps p d c
        (c.ld.svgY + off.2 - c.ld.lineHeight + 2 - c.ld.paddingY)
        (some (c.ld.svgX + off.1)))) with
  | none => simp [hf]
  | some off => simp [hf]

theorem placeVert_ld (p : List LP) (d : List (ℚ × ℚ)) (c : LP) :
    ((placeVert p d c).1).ld = c.ld := by
  simp only [placeVert]
  split
  · exact tryPosition_ld p d c _
  · rw [tryPosition_ld, tryPosition_ld]

theorem placeVert_isAngled (p : List LP) (d : List (ℚ × ℚ)) (c : LP) :
    ((placeVert p d c).1).isAngled = c.isAngled := by
  simp only [placeVert]
  split
  · exact tryPosition_isAngled p d c _
  · rw [tryPosition_isAngled, tryPosition_isAngled]

theorem placeVert_offsetX (p : List LP) (d : List (ℚ × ℚ)) (c : LP) :
    ((placeVert p d c).1).offsetX = c.offsetX := by
  simp only [placeVert]
  split
  · exact tryPosition_offsetX p d c _
  · rw [tryPosition_offsetX, tryPosition_offsetX]

theorem placeFallback_ld (p : List LP) (d : List (ℚ × ℚ)) (v : LP × Bool × Bool) :
    ((placeFallback p d v).1).ld = (v.1).ld := by
  simp only [placeFallback]
  split
  · rfl
  · split
    · exact tryAngledPosition_ld p d v.1
    · exact tryAngledPosition_ld p d v.1

theorem placeOneFinish_ld (w : LP × Bool × Bool) :
    ((placeOneFinish w).1).ld = (w.1).ld := by
  simp only [placeOneFinish]
  exact clampLP_ld w.1

theorem placeOneFull_ld (p : List LP) (d : List (ℚ × ℚ)) (c : LP) :
    ((placeOneFull p d c).1).ld = c.ld := by
  simp only [placeOneFull]
  rw [placeOneFinish_ld, placeFallback_ld, placeVert_ld]

theorem subset_layoutLoopF :
    ∀ (rest : List LP) (acc : List (LP × Bool)) (e : LP × Bool),
      e ∈ acc → e ∈ layoutLoopF acc rest := by
  intro rest
  induction rest with
  | nil => intro acc e he; simpa [layoutLoopF] using he
  | cons c rest ih =>
    intro acc e he
    simp only [layoutLoopF]
    exact ih _ e (List.mem_append_left _ he)

theorem mem_layoutLoopF :
    ∀ (rest : List LP) (acc : List (LP × Bool)) (e : LP × Bool),
      e ∈ layoutLoopF acc rest →
        e ∈ acc ∨ ∃ p d c, e = placeOneFull p d c := by
  intro rest
  induction rest with
  | nil => intro acc e he; exact Or.inl (by simpa [layoutLoopF] using he)
  | cons c rest ih =>
    intro acc e he
    simp only [layoutLoopF] at he
    rcases ih _ e he with h | h
    · rcases List.mem_append.1 h with h1 | h1
      · exact Or.inl h1
      · exact Or.inr ⟨_, _, _, by simpa using h1⟩
    · exact Or.inr h

theorem layoutLoopF_map_ld :
    ∀ (rest : List LP) (acc : List (LP × Bool)),
      (layoutLoopF acc rest).map (fun e => e.1.ld) =
        acc.map (fun e => e.1.ld) ++ rest.map LP.ld := by
  intro rest
  induction rest with
  | nil => intro acc; simp [layoutLoopF]
  | cons c rest ih =>
    intro acc
    simp only [layoutLoopF]
    rw [ih]
    simp [placeOneFull_ld]

theorem insertByX_perm (a : LD) : ∀ l : List LD, (insertByX a l).Perm (a :: l) := by
  intro l
  induction l with
  | nil => exact List.Perm.refl _
  | cons b t ih =>
    simp only [insertByX]
    split
    · exact (ih.cons b).trans (List.Perm.swap a b t)
    · exact List.Perm.refl _

theorem sortByX_perm : ∀ l : List LD, (sortByX l).Perm l := by
  intro l
  induction l with
  | nil => exact List.Perm.refl _
  | cons a t ih => exact (insertByX_perm a (sortByX t)).trans (ih.cons a)

theorem calcF_map_ld (epics : List Epic) :
    (calculateLabelPositionsF epics).map (fun e => e.1.ld) = sortByX (epics.map mkLD) := by
  unfold calculateLabelPositionsF
  rw [layoutLoopF_map_ld]
  simp only [List.map_nil, List.nil_append, List.map_map]
  have h : (LP.ld ∘ initLP) = id := funext fun _ => rfl
  rw [h, List.map_id]

theorem calc_map_ld (epics : List Epic) :
    (calculateLabelPositions epics).map LP.ld = sortByX (epics.map mkLD) := by
  unfold calculateLabelPositions
  rw [List.map_map]
  have h : (LP.ld ∘ Prod.fst) = (fun e : LP × Bool => e.1.ld) := funext fun _ => rfl
  rw [h, calcF_map_ld]

theorem calc_length (epics : List Epic) :
    (calculateLabelPositions epics).length = epics.length := by
  have h := congrArg List.length (calc_map_ld epics)
  simpa [(sortByX_perm (epics.map mkLD)).length_eq] using h

theorem calc_keys_eq (epics : List Epic) :
    (calculateLabelPositions epics).map (fun lp => lp.ld.epic.key) =
      (sortByX (epics.map mkLD)).map (fun d => d.epic.key) := by
  have h : (fun lp : LP => lp.ld.epic.key) = ((fun d : LD => d.epic.key) ∘ LP.ld) :=
    funext fun _ => rfl
  rw [h, ← List.map_map, calc_map_ld]

theorem calc_keys_perm (epics : List Epic) :
    ((calculateLabelPositions epics).map (fun lp => lp.ld.epic.key)).Perm
      (epics.map Epic.key) := by
  rw [calc_keys_eq]
  have h1 := (sortByX_perm (epics.map mkLD)).map (fun d : LD => d.epic.key)
  have h2 : (epics.map mkLD).map (fun d : LD => d.epic.key) = epics.map Epic.key := by
    rw [List.map_map]
    exact List.map_congr_left fun e _ => rfl
  rw [h2] at h1
  exact h1

/-- C6: for every marker list with pairwise-distinct keys, the layout
returns exactly one placement per input key — the output keys are a
permutation of the input keys and each input key occurs exactly once in
the label map — and the empty marker list yields an empty map. -/
theorem c6_one_placement_per_key (epics : List Epic)
    (h : (epics.map Epic.key).Nodup) :
    ((labelMap epics).map Prod.fst).Perm (epics.map Epic.key) ∧
    (∀ k ∈ epics.map Epic.key, ((labelMap epics).map Prod.fst).count k = 1) ∧
    labelMap ([] : List Epic) = [] := by
  have hkeys : (labelMap epics).map Prod.fst
      = (calculateLabelPositions epics).map (fun lp => lp.ld.epic.key) := by
    unfold labelMap
    rw [List.map_map]
    rfl
  refine ⟨hkeys ▸ calc_keys_perm epics, fun k hk => ?_, rfl⟩
  rw [hkeys, (calc_keys_perm epics).count_eq]
  exact List.count_eq_one_of_mem h hk

theorem c6_one_placement_per_key_witness :
    ((([⟨"A", 25, "x"⟩, ⟨"B", 75, "x"⟩] : List Epic).map Epic.key).Nodup) ∧
    ((labelMap [⟨"A", 25, "x"⟩, ⟨"B", 75, "x"⟩]).map Prod.fst).Perm
      (([⟨"A", 25, "x"⟩, ⟨"B", 75, "x"⟩] : List Epic).map Epic.key) ∧
    (∀ k ∈ ([⟨"A", 25, "x"⟩, ⟨"B", 75, "x"⟩] : List Epic).map Epic.key,
      ((labelMap [⟨"A", 25, "x"⟩, ⟨"B", 75, "x"⟩]).map Prod.fst).count k = 1) ∧
    labelMap ([] : List Epic) = [] :=
  ⟨by decide, c6_one_placement_per_key _ (by decide)⟩

/-- C9: the layout engine is total — every input list yields exactly
one placement per marker — and a marker with empty text still receives
a placement whose text block is a single empty line and whose box
height is exactly that of a one-line block
(`1·lineHeight + 2·paddingY`). -/
theorem c9_total_empty_text (epics : List Epic) :
    (calculateLabelPositions epics).length = epics.length ∧
    ∀ lp ∈ calculateLabelPositions epics, lp.ld.epic.title = "" →
      lp.ld.textLines = [""] ∧
      lp.ld.boxHeight = lp.ld.lineHeight * 1 + lp.ld.paddingY * 2 := by
  refine ⟨calc_length epics, fun lp hmem htitle => ?_⟩
  have h1 : lp.ld ∈ (calculateLabelPositions epics).map LP.ld :=
    List.mem_map_of_mem LP.ld hmem
  rw [calc_map_ld] at h1
  have h2 : lp.ld ∈ epics.map mkLD := (sortByX_perm _).mem_iff.1 h1
  rcases List.mem_map.1 h2 with ⟨e, _, hEq⟩
  have htitle' : e.title = "" := by
    have : (mkLD e).epic.title = "" := by rw [hEq]; exact htitle
    simpa [mkLD_epic] using this
  have hlines : lp.ld.textLines = [""] := by
    rw [← hEq, mkLD_textLines, htitle']
    with_unfolding_all decide
  refine ⟨hlines, ?_⟩
  rw [← hEq, mkLD_boxHeight, mkLD_lineHeight, mkLD_paddingY, mkLD_textLines]
  have : (wrapText e.title 18).length = 1 := by
    rw [htitle']
    with_unfolding_all decide
  rw [← mkLD_textLines, hEq, hlines]
  norm_num

theorem c9_total_empty_text_witness :
    (calculateLabelPositions [{ key := "E", x := 50, title := "" }]).length = 1 ∧
    ((calculateLabelPositions [{ key := "E", x := 50, title := "" }]).headI
      ∈ calculateLabelPositions [{ key := "E", x := 50, title := "" }]) ∧
    ((calculateLabelPositions [{ key := "E", x := 50, title := "" }]).headI.ld.epic.title
      = "") ∧
    (calculateLabelPositions [{ key := "E", x := 50, title := "" }]).headI.ld.textLines
      = [""] ∧
    (calculateLabelPositions [{ key := "E", x := 50, title := "" }]).headI.ld.boxHeight
      = (calculateLabelPositions [{ key := "E", x := 50, title := "" }]).headI.ld.lineHeight
          * 1
        + (calculateLabelPositions [{ key := "E", x := 50, title := "" }]).headI.ld.paddingY
          * 2 :=
  ⟨(c9_total_empty_text [{ key := "E", x := 50, title := "" }]).1,
    by with_unfolding_all decide, by with_unfolding_all decide,
    (c9_total_empty_text [{ key := "E", x := 50, title := "" }]).2
      (calculateLabelPositions [{ key := "E", x := 50, title := "" }]).headI
      (by with_unfolding_all decide) (by with_unfolding_all decide)⟩

theorem clampY_bounds (yb h : ℚ) :
    clampY yb h + h ≤ 315 ∧ (h ≤ 270 → 45 ≤ clampY yb h) ∧
      (270 < h → clampY yb h < 45) := by
  have hmin : minY = 45 := by norm_num [minY, MARGIN_Y]
  have hmax : maxY = 315 := by norm_num [maxY, HILL_HEIGHT, MARGIN_Y, TITLE_HEIGHT]
  simp only [clampY, hmin, hmax]
  split <;> split <;>
    exact ⟨by linarith, fun hh => by linarith, fun hh => by linarith⟩

theorem placeOneFull_boxY (p : List LP) (d : List (ℚ × ℚ)) (c : LP) :
    ((placeOneFull p d c).1).boxY =
      clampY ((placeFallback p d (placeVert p d c)).1).boxY
        ((placeFallback p d (placeVert p d c)).1).ld.boxHeight := by
  simp only [placeOneFull, placeOneFinish]
  exact clampLP_boxY _

/-- C10: every placement returned by the engine satisfies
`boxY + boxHeight ≤ maxY` (= 315); whenever the box height is at most
the drawable band height `maxY − minY` (= 270) it also satisfies
`boxY ≥ minY` (= 45); and a box taller than the band ends with its top
above `minY` (the bottom clamp runs after the top clamp). -/
theorem c10_clamp_invariant (epics : List Epic) :
    ∀ lp ∈ calculateLabelPositions epics,
      lp.boxY + lp.ld.boxHeight ≤ 315 ∧
      (lp.ld.boxHeight ≤ 270 → 45 ≤ lp.boxY) ∧
      (270 < lp.ld.boxHeight → lp.boxY < 45) := by
  intro lp hmem
  rcases List.mem_map.1 hmem with ⟨e, he, rfl⟩
  rcases mem_layoutLoopF _ _ _ he with h | ⟨p, d, c, rfl⟩
  · simp at h
  · have hld : ((placeFallback p d (placeVert p d c)).1).ld = c.ld := by
      rw [placeFallback_ld, placeVert_ld]
    have hld2 : ((placeOneFull p d c).1).ld = c.ld := placeOneFull_ld p d c
    rw [placeOneFull_boxY, hld, hld2]
    exact clampY_bounds _ _

theorem c10_clamp_invariant_witness :
    ((calculateLabelPositions [{ key := "A", x := 50, title := "x" }]).headI
      ∈ calculateLabelPositions [{ key := "A", x := 50, title := "x" }]) ∧
    ((calculateLabelPositions [{ key := "A", x := 50, title := "x" }]).headI.boxY
        + (calculateLabelPositions [{ key := "A", x := 50, title := "x" }]).headI.ld.boxHeight
      ≤ 315) ∧
    ((calculateLabelPositions [{ key := "A", x := 50, title := "x" }]).headI.ld.boxHeight
      ≤ 270) ∧
    (45 ≤ (calculateLabelPositions [{ key := "A", x := 50, title := "x" }]).headI.boxY) :=
  ⟨by with_unfolding_all decide,
    (c10_clamp_invariant [{ key := "A", x := 50, title := "x" }]
      (calculateLabelPositions [{ key := "A", x := 50, title := "x" }]).headI
      (by with_unfolding_all decide)).1,
    by with_unfolding_all decide,
    (c10_clamp_invariant [{ key := "A", x := 50, title := "x" }]
      (calculateLabelPositions [{ key := "A", x := 50, title := "x" }]).headI
      (by with_unfolding_all decide)).2.1 (by with_unfolding_all decide)⟩

theorem tryPosition_moved_false (p : List LP) (d : List (ℚ × ℚ)) (c : LP) (s : Bool)
    (h : (tryPosition p d c s).2.2 = false) :
    (tryPosition p d c s).1 =
      { c with
          labelY := if s then initialYBelow c.ld else initialYAbove c.ld
          boxY := if s then initialBoxYBelow c.ld else initialBoxYAbove c.ld
          isBelowDot := s } := by
  revert h
  simp only [tryPosition]
  repeat' split
  all_goals intro h
  all_goals try rfl
  all_goals simp at h

theorem placeFallback_of_not_moved (p : List LP) (d : List (ℚ × ℚ)) (v : LP × Bool × Bool)
    (h : (placeFallback p d v).2.2 = false) :
    (placeFallback p d v).1 = v.1 ∧ v.2.2 = false := by
  revert h
  simp only [placeFallback]
  split
  · exact fun h => ⟨rfl, h⟩
  · split
    · intro h; simp at h
    · rename_i hra
      exact fun h => ⟨tryAngledPosition_fail p d v.1 (Bool.eq_false_iff.2 hra), h⟩

theorem placeVert_of_not_moved (p : List LP) (d : List (ℚ × ℚ)) (c : LP)
    (h : (placeVert p d c).2.2 = false) :
    ∃ s : Bool, (placeVert p d c).1 =
      { c with
          labelY := if s then initialYBelow c.ld else initialYAbove c.ld
          boxY := if s then initialBoxYBelow c.ld else initialBoxYAbove c.ld
          isBelowDot := s } := by
  revert h
  simp only [placeVert]
  split
  · intro h
    exact ⟨preferBelow p c, tryPosition_moved_false p d c _ h⟩
  · intro h
    rcases Bool.or_eq_false_iff.1 h with ⟨h1, h2⟩
    refine ⟨!(preferBelow p c), ?_⟩
    rw [tryPosition_moved_false p d _ _ h2, tryPosition_moved_false p d c _ h1]

theorem placeOneFinish_fields (w : LP × Bool × Bool) :
    ((placeOneFinish w).1).isAtClosestPosition = (!w.2.2 && !(clampLP w.1).isAngled) ∧
    ((placeOneFinish w).1).isAngled = (clampLP w.1).isAngled ∧
    ((placeOneFinish w).1).boxY = (clampLP w.1).boxY ∧
    ((placeOneFinish w).1).labelY = (clampLP w.1).labelY ∧
    ((placeOneFinish w).1).isBelowDot = (clampLP w.1).isBelowDot ∧
    ((placeOneFinish w).1).offsetX = (clampLP w.1).offsetX ∧
    ((placeOneFinish w).1).ld = (clampLP w.1).ld :=
  ⟨rfl, rfl, rfl, rfl, rfl, rfl, rfl⟩

theorem initialY_eq_above (d : LD) :
    initialYAbove d = initialBoxYAbove d + d.lineHeight - 2 + d.paddingY := by
  simp only [initialBoxYAbove]
  ring

theorem initialY_eq_below (d : LD) :
    initialYBelow d = initialBoxYBelow d + d.lineHeight - 2 + d.paddingY := by
  simp only [initialBoxYBelow]
  ring

theorem placeOneFull_closest (p : List LP) (d : List (ℚ × ℚ)) (c : LP)
    (h : ((placeOneFull p d c).1).isAtClosestPosition = true) :
    ((placeOneFull p d c).1).isAngled = false ∧
    ((placeOneFull p d c).1).boxY =
      clampY (if ((placeOneFull p d c).1).isBelowDot
          then initialBoxYBelow ((placeOneFull p d c).1).ld
          else initialBoxYAbove ((placeOneFull p d c).1).ld)
        ((placeOneFull p d c).1).ld.boxHeight ∧
    ((placeOneFull p d c).1).labelY =
      ((placeOneFull p d c).1).boxY + ((placeOneFull p d c).1).ld.lineHeight - 2
        + ((placeOneFull p d c).1).ld.paddingY := by
  have hple : placeOneFull p d c = placeOneFinish (placeFallback p d (placeVert p d c)) := rfl
  rw [hple] at h ⊢
  set w := placeFallback p d (placeVert p d c) with hw
  have hfin := placeOneFinish_fields w
  rw [hfin.1, Bool.and_eq_true] at h
  obtain ⟨hmoved, hang⟩ := h
  rw [Bool.not_eq_true'] at hmoved hang
  obtain ⟨hw1, hv2⟩ := placeFallback_of_not_moved p d (placeVert p d c) hmoved
  obtain ⟨s, hv⟩ := placeVert_of_not_moved p d c hv2
  have hrec : w.1 = { c with
      labelY := if s then initialYBelow c.ld else initialYAbove c.ld
      boxY := if s then initialBoxYBelow c.ld else initialBoxYAbove c.ld
      isBelowDot := s } := by
    rw [hw]
    exact hw1.trans hv
  have hlab : w.1.labelY = w.1.boxY + w.1.ld.lineHeight - 2 + w.1.ld.paddingY := by
    rw [hrec]
    cases s
    · simpa using initialY_eq_above c.ld
    · simpa using initialY_eq_below c.ld
  refine ⟨by rw [hfin.2.1]; exact hang, ?_, ?_⟩
  · rw [hfin.2.2.1, hfin.2.2.2.2.1, hfin.2.2.2.2.2.2, clampLP_boxY, clampLP_isBelowDot,
      clampLP_ld, hrec]
  · rw [hfin.2.2.2.1, hfin.2.2.1, hfin.2.2.2.2.2.2]
    exact clampLP_labelY w.1 hlab

/-- C3 corrected: a placement is `isDefault=false` (connector drawn)
whenever the vertical search actually stepped the label or a diagonal
fallback was used — but, contrary to the claim, `isDefault=true` does
not require the preferred side's default position to be accepted: a
side whose default position fails the bounds check reports no movement,
so a placement can be `isDefault=true` on the opposite side or after
the final clamp.  Invariant: every `isDefault=true` placement is
non-angled, draws no connector, and sits exactly at the final clamp of
the default position of its recorded side (`isBelowDot`), with the text
baseline tied to the box top. -/
theorem c3_amended_is_default (epics : List Epic) :
    ∀ lp ∈ calculateLabelPositions epics, lp.isAtClosestPosition = true →
      lp.isAngled = false ∧ connectorDrawn lp = false ∧
      lp.boxY = clampY (if lp.isBelowDot then initialBoxYBelow lp.ld
          else initialBoxYAbove lp.ld) lp.ld.boxHeight ∧
      lp.labelY = lp.boxY + lp.ld.lineHeight - 2 + lp.ld.paddingY := by
  intro lp hmem hcl
  rcases List.mem_map.1 hmem with ⟨e, he, rfl⟩
  rcases mem_layoutLoopF _ _ _ he with hx | ⟨p, d, c, rfl⟩
  · simp at hx
  · obtain ⟨h1, h2, h3⟩ := placeOneFull_closest p d c hcl
    exact ⟨h1, by simp [connectorDrawn, hcl], h2, h3⟩

theorem c3_amended_is_default_witness :
    ((calculateLabelPositions [{ key := "B", x := 50, title := "ok" }]).headI
      ∈ calculateLabelPositions [{ key := "B", x := 50, title := "ok" }]) ∧
    ((calculateLabelPositions [{ key := "B", x := 50, title := "ok" }]).headI.isAtClosestPosition
      = true) ∧
    ((calculateLabelPositions [{ key := "B", x := 50, title := "ok" }]).headI.isAngled = false ∧
      connectorDrawn (calculateLabelPositions [{ key := "B", x := 50, title := "ok" }]).headI
        = false ∧
      (calculateLabelPositions [{ key := "B", x := 50, title := "ok" }]).headI.boxY =
        clampY
          (if (calculateLabelPositions
                [{ key := "B", x := 50, title := "ok" }]).headI.isBelowDot
            then initialBoxYBelow
              (calculateLabelPositions [{ key := "B", x := 50, title := "ok" }]).headI.ld
            else initialBoxYAbove
              (calculateLabelPositions [{ key := "B", x := 50, title := "ok" }]).headI.ld)
          (calculateLabelPositions [{ key := "B", x := 50, title := "ok" }]).headI.ld.boxHeight ∧
      (calculateLabelPositions [{ key := "B", x := 50, title := "ok" }]).headI.labelY =
        (calculateLabelPositions [{ key := "B", x := 50, title := "ok" }]).headI.boxY
          + (calculateLabelPositions
              [{ key := "B", x := 50, title := "ok" }]).headI.ld.lineHeight
          - 2
          + (calculateLabelPositions
              [{ key := "B", x := 50, title := "ok" }]).headI.ld.paddingY) :=
  ⟨by with_unfolding_all decide, by with_unfolding_all decide,
    c3_amended_is_default [{ key := "B", x := 50, title := "ok" }]
      (calculateLabelPositions [{ key := "B", x := 50, title := "ok" }]).headI
      (by with_unfolding_all decide) (by with_unfolding_all decide)⟩

theorem boxesOverlap_symm_false (a1 b1 w1 h1 a2 b2 w2 h2 : ℚ)
    (h : boxesOverlap a1 b1 w1 h1 a2 b2 w2 h2 = false) :
    boxesOverlap a2 b2 w2 h2 a1 b1 w1 h1 = false := by
  simp only [boxesOverlap, decide_eq_false_iff_not] at h ⊢
  rintro ⟨q1, q2, q3, q4⟩
  exact h ⟨by linarith, by linarith, by linarith, by linarith⟩

theorem checkOverlaps_ld_congr (p : List LP) (d : List (ℚ × ℚ)) (c1 c2 : LP)
    (h : c1.ld = c2.ld) (yb : ℚ) (xb : Option ℚ) :
    checkOverlaps p d c1 yb xb = checkOverlaps p d c2 yb xb := by
  simp only [checkOverlaps, h]

theorem checkOverlaps_false_bounds (p : List LP) (d : List (ℚ × ℚ)) (cur : LP)
    (yb : ℚ) (xb : Option ℚ) (h : checkOverlaps p d cur yb xb = false) :
    isWithinBounds yb cur.ld.boxHeight = true := by
  simp only [checkOverlaps, Bool.or_eq_false_iff, Bool.not_eq_false'] at h
  exact h.1.1.1.1

theorem checkOverlaps_false_placed (p : List LP) (d : List (ℚ × ℚ)) (cur : LP)
    (yb : ℚ) (xb : Option ℚ) (h : checkOverlaps p d cur yb xb = false) :
    ∀ q ∈ p, boxesOverlap (xb.getD cur.ld.svgX) yb cur.ld.boxWidth cur.ld.boxHeight
      (effX q) q.boxY q.ld.boxWidth q.ld.boxHeight = false := by
  simp only [checkOverlaps, Bool.or_eq_false_iff, List.any_eq_false] at h
  exact fun q hq => Bool.eq_false_iff.2 (h.1.2 q hq)

set_option maxRecDepth 4000 in
theorem searchLoop_success_checked (p : List LP) (d : List (ℚ × ℚ)) (cur : LP) (s : Bool) :
    ∀ (fuel : ℕ) (ly yb : ℚ),
      (searchLoop p d cur s fuel ly yb).1 = true →
      checkOverlaps p d cur (searchLoop p d cur s fuel ly yb).2.2 none = false := by
  intro fuel
  induction fuel with
  | zero => intro ly yb h; simp [searchLoop] at h
  | succ n ih =>
    intro ly yb
    simp only [searchLoop]
    repeat' split
    all_goals intro h
    all_goals first
      | exact Bool.noConfusion h
      | assumption
      | exact ih _ _ h

theorem searchLoop_success_checked_congr (p : List LP) (d : List (ℚ × ℚ)) (cur cur' : LP)
    (hld : cur'.ld = cur.ld) (s : Bool) (fuel : ℕ) (ly yb : ℚ)
    (h : (searchLoop p d cur s fuel ly yb).1 = true) :
    checkOverlaps p d cur' (searchLoop p d cur s fuel ly yb).2.2 none = false := by
  rw [checkOverlaps_ld_congr p d cur' cur hld]
  exact searchLoop_success_checked p d cur s fuel ly yb h

set_option maxRecDepth 8000 in
theorem tryPosition_success_checked (p : List LP) (d : List (ℚ × ℚ)) (c : LP) (s : Bool)
    (h : (tryPosition p d c s).2.1 = true) :
    checkOverlaps p d ((tryPosition p d c s).1) ((tryPosition p d c s).1).boxY none
      = false := by
  revert h
  simp only [tryPosition]
  repeat' split
  all_goals intro h
  all_goals first
    | exact Bool.noConfusion h
    | assumption
    | exact searchLoop_success_checked_congr p d _ _ rfl _ 100 _ _ h

theorem tryAngledPosition_success_checked (p : List LP) (d : List (ℚ × ℚ)) (c : LP)
    (h : (tryAngledPosition p d c).2 = true) :
    checkOverlaps p d ((tryAngledPosition p d c).1) ((tryAngledPosition p d c).1).boxY
      (some (effX ((tryAngledPosition p d c).1))) = false ∧
    ((tryAngledPosition p d c).1).isAngled = true := by
  rw [tryAngledPosition_eq_spec] at h ⊢
  unfold specAngledSelect at h ⊢
  cases hf : (specDiagonalOffsets c.ld.boxWidth c.ld.boxHeight).find?
      (fun off => !(checkOverlaps p d c
        (c.ld.svgY + off.2 - c.ld.lineHeight + 2 - c.ld.paddingY)
        (some (c.ld.svgX + off.1)))) with
  | none => rw [hf] at h; exact Bool.noConfusion h
  | some off =>
    have hoff := List.find?_some hf
    rw [Bool.not_eq_true'] at hoff
    exact ⟨hoff, rfl⟩

theorem placeVert_success_checked (p : List LP) (d : List (ℚ × ℚ)) (c : LP)
    (h : (placeVert p d c).2.1 = true) :
    checkOverlaps p d ((placeVert p d c).1) ((placeVert p d c).1).boxY none = false := by
  revert h
  simp only [placeVert]
  split
  · exact fun h => tryPosition_success_checked p d c _ h
  · exact fun h => tryPosition_success_checked p d _ _ h

theorem placeFallback_success_checked (p : List LP) (d : List (ℚ × ℚ)) (v : LP × Bool × Bool)
    (hv1 : (v.1).isAngled = false)
    (hvert : v.2.1 = true → checkOverlaps p d v.1 (v.1).boxY none = false)
    (hacc : (placeFallback p d v).2.1 = true) :
    checkOverlaps p d ((placeFallback p d v).1) ((placeFallback p d v).1).boxY
      (if ((placeFallback p d v).1).isAngled then some (effX ((placeFallback p d v).1))
        else none) = false := by
  revert hacc
  simp only [placeFallback]
  split
  · rename_i hv
    intro _
    rw [hv1]
    simp only [Bool.false_eq_true, if_false]
    exact hvert hv
  · split
    · rename_i hra
      intro _
      obtain ⟨hchk, hI⟩ := tryAngledPosition_success_checked p d v.1 hra
      rw [hI]
      simpa using hchk
    · intro h
      exact Bool.noConfusion h

theorem placeOneFull_accepted_checked (p : List LP) (d : List (ℚ × ℚ)) (c : LP)
    (hA : c.isAngled = false)
    (hacc : (placeOneFull p d c).2 = true) :
    checkOverlaps p d ((placeOneFull p d c).1) ((placeOneFull p d c).1).boxY
      (if ((placeOneFull p d c).1).isAngled then some (effX ((placeOneFull p d c).1))
        else none) = false := by
  have hv1 : ((placeVert p d c).1).isAngled = false := by
    rw [placeVert_isAngled]; exact hA
  have hchk := placeFallback_success_checked p d (placeVert p d c) hv1
    (placeVert_success_checked p d c) hacc
  have hb := checkOverlaps_false_bounds p d _ _ _ hchk
  have hcl : clampLP ((placeFallback p d (placeVert p d c)).1)
      = (placeFallback p d (placeVert p d c)).1 := clampLP_id _ hb
  have hfin : (placeOneFull p d c).1
      = { (placeFallback p d (placeVert p d c)).1 with
          isAtClosestPosition :=
            !(placeFallback p d (placeVert p d c)).2.2 &&
            !(clampLP ((placeFallback p d (placeVert p d c)).1)).isAngled } := by
    show ({ clampLP ((placeFallback p d (placeVert p d c)).1) with
        isAtClosestPosition := _ } : LP) = _
    rw [hcl]
  rw [hfin]
  exact hchk

theorem placeOneFull_no_overlap (p : List LP) (d : List (ℚ × ℚ)) (c : LP)
    (hA : c.isAngled = false)
    (hacc : (placeOneFull p d c).2 = true) :
    ∀ q ∈ p, noOverlapPair ((placeOneFull p d c).1) q ∧
      noOverlapPair q ((placeOneFull p d c).1) := by
  intro q hq
  have hchk := placeOneFull_accepted_checked p d c hA hacc
  have hplaced := checkOverlaps_false_placed p d _ _ _ hchk q hq
  have hx : ((if ((placeOneFull p d c).1).isAngled
        then some (effX ((placeOneFull p d c).1)) else none).getD
        ((placeOneFull p d c).1).ld.svgX) = effX ((placeOneFull p d c).1) := by
    cases hI : ((placeOneFull p d c).1).isAngled
    · simp [effX, hI]
    · simp [hI]
  rw [hx] at hplaced
  exact ⟨hplaced, boxesOverlap_symm_false _ _ _ _ _ _ _ _ hplaced⟩

theorem layoutLoopF_pairwise :
    ∀ (rest : List LP) (acc : List (LP × Bool)),
      (∀ e ∈ rest, e.isAngled = false) →
      (∀ e ∈ layoutLoopF acc rest, e.2 = true) →
      ((acc.map Prod.fst).Pairwise fun a b => noOverlapPair a b ∧ noOverlapPair b a) →
      (((layoutLoopF acc rest).map Prod.fst).Pairwise
        fun a b => noOverlapPair a b ∧ noOverlapPair b a) := by
  intro rest
  induction rest with
  | nil => intro acc _ _ hp; simpa [layoutLoopF] using hp
  | cons c rest ih =>
    intro acc hrest hflags hp
    simp only [layoutLoopF] at hflags ⊢
    apply ih
    · exact fun e he => hrest e (List.mem_cons_of_mem _ he)
    · exact hflags
    · rw [List.map_append]
      refine List.pairwise_append.2 ⟨hp, List.pairwise_singleton _ _, ?_⟩
      intro a ha b hb
      simp only [List.map_cons, List.map_nil, List.mem_singleton] at hb
      subst hb
      have hnew : (placeOneFull (acc.map Prod.fst)
          ((acc.map Prod.fst).map (fun pp => (pp.ld.svgX, pp.ld.svgY)) ++
            rest.map (fun pp => (pp.ld.svgX, pp.ld.svgY))) c)
          ∈ layoutLoopF (acc ++ [placeOneFull (acc.map Prod.fst)
            ((acc.map Prod.fst).map (fun pp => (pp.ld.svgX, pp.ld.svgY)) ++
              rest.map (fun pp => (pp.ld.svgX, pp.ld.svgY))) c]) rest :=
        subset_layoutLoopF rest _ _
          (List.mem_append_right _ (List.mem_singleton.2 rfl))
      have hflag := hflags _ hnew
      have hAngle : c.isAngled = false := hrest c (List.mem_cons_self _ _)
      have hno := placeOneFull_no_overlap _ _ c hAngle hflag a ha
      exact ⟨hno.2, hno.1⟩

/-- C1: for any marker list in which every marker's placement is
accepted by the validity check (vertical default, vertical search, or
diagonal fallback — equivalently, the acceptance flag of each entry of
`calculateLabelPositionsF` is true, so no marker reaches the
last-resort clamp), no two placements' label boxes overlap under the
engine's `boxesOverlap` test with `MIN_SPACING = 8` vertical inflation,
taken at their effective centers; each marker is checked against every
earlier-committed label, and by symmetry of the test the relation holds
pairwise over the whole output. -/
theorem c1_no_overlap (epics : List Epic)
    (hacc : ∀ e ∈ calculateLabelPositionsF epics, e.2 = true) :
    (calculateLabelPositions epics).Pairwise
      (fun a b => noOverlapPair a b ∧ noOverlapPair b a) := by
  unfold calculateLabelPositions
  unfold calculateLabelPositionsF at hacc
  apply layoutLoopF_pairwise
  · intro e he
    rcases List.mem_map.1 he with ⟨dd, _, rfl⟩
    rfl
  · exact hacc
  · simp

theorem c1_no_overlap_witness :
    (∀ e ∈ calculateLabelPositionsF [⟨"A", 25, "x"⟩, ⟨"B", 75, "x"⟩], e.2 = true) ∧
    (calculateLabelPositions [⟨"A", 25, "x"⟩, ⟨"B", 75, "x"⟩]).Pairwise
      (fun a b => noOverlapPair a b ∧ noOverlapPair b a) :=
  ⟨by with_unfolding_all decide,
    c1_no_overlap [⟨"A", 25, "x"⟩, ⟨"B", 75, "x"⟩] (by with_unfolding_all decide)⟩

end HillChartSpec
